import Mathlib

/-!
Shallow embedding of the blitzform form-state engine (`useForm` in
`src/unnamed/part_003`, `useField` in `src/unnamed/part_001`).

The engine stores a sparse diff of user edits over an upstream record and a
per-field touched map, and derives effective values, per-field validation
errors, dirty flags and field bindings from them.  JavaScript runtime values
are modelled by the inductive `Val`; a JS object used as a record is modelled
as a total function `Field → Val` where `Val.undefined` stands for an absent key
(every read the source performs on such objects — `x[k] ?? y`,
`x[k] !== undefined`, `!!x[k]` — treats an absent key and an `undefined`
value identically, so the identification is observationally exact).

The external validator (zod) is a black box to the engine; it is modelled by
`FieldSchema` (one field's `safeParse`) and `objectSafeParse`
(`ZodObject.safeParse` of a plain object schema: each field of the shape is
parsed against the corresponding key of the input, the record succeeds iff
every field parse succeeds, and on failure the field issues are collected
with the field name prefixed to their paths — zod's behaviour for a shape
without refinements).
-/

namespace Blitzform

/-- Field names of the schema (JS object keys). -/
abbrev Field := String

/-- JavaScript runtime values, as far as the engine observes them.
`undefined` is JS `undefined`, `null` is JS `null`.  `obj ref` is any
non-primitive value (array, object, function), identified by its reference:
the engine never inspects the contents of a composite value — it only stores
values, compares them with `===` (which on objects is reference equality),
and tests them against `undefined`/nullishness — so reference identity is
all of a composite value the engine can observe. -/
inductive Val where
  | str (s : String)
  | num (n : Int)
  | bool (b : Bool)
  | null
  | undefined
  | obj (ref : Nat)
deriving DecidableEq

/-- JS "nullish": `null` or `undefined`. -/
def Val.isNullish : Val → Bool
  | .null => true
  | .undefined => true
  | _ => false

/-- JS nullish coalescing `a ?? b`. -/
def nullishOr (a b : Val) : Val :=
  if a.isNullish then b else a

/-- JS strict equality `a === b`: structural on primitives, reference
equality on composite values, `null === null` and
`undefined === undefined` true, cross-type false. -/
def jsStrictEq : Val → Val → Bool
  | .str a, .str b => a == b
  | .num a, .num b => a == b
  | .bool a, .bool b => a == b
  | .null, .null => true
  | .undefined, .undefined => true
  | .obj a, .obj b => a == b
  | _, _ => false

/-! ## The external validator (zod), as the black box the engine calls -/

/-- One structured validation issue of a `ZodError`. -/
structure ZodIssue where
  message : String
  path : List Field
deriving DecidableEq

/-- A structured validation failure: the list of issues. -/
structure ZodError where
  issues : List ZodIssue
deriving DecidableEq

/-- Result of `schema.safeParse(value)` for a single field schema. -/
inductive SPResult where
  | success (data : Val)
  | failure (error : ZodError)
deriving DecidableEq

def SPResult.isSuccess : SPResult → Bool
  | .success _ => true
  | .failure _ => false

/-- A single field's validator: `safeParse` plus `isOptional()`. -/
structure FieldSchema where
  parse : Val → SPResult
  isOptional : Bool

/-- The shape of a `ZodObject`: field name to field schema, in key order
(`Object.keys(schema.shape)`); keys are unique in a JS object. -/
abbrev Shape := List (Field × FieldSchema)

/-- `Object.keys(schema.shape)`. -/
def fieldKeys (shape : Shape) : List Field :=
  shape.map Prod.fst

/-- `schema.shape[name]` (JS property lookup). -/
def shapeLookup (shape : Shape) (name : Field) : Option FieldSchema :=
  shape.lookup name

/-- Result of `schema.safeParse(record)` for the object schema: the parsed
record on success, the `ZodError` on failure. -/
inductive FormParseResult where
  | success (data : List (Field × Val))
  | failure (error : ZodError)
deriving DecidableEq

def FormParseResult.isSuccess : FormParseResult → Bool
  | .success _ => true
  | .failure _ => false

/-- The issues a `ZodObject.safeParse` collects: for every field of the shape
whose parse of the corresponding input value fails, that field's issues with
the field name prefixed to their paths. -/
def objectIssues (shape : Shape) (record : Field → Val) : List ZodIssue :=
  shape.foldr
    (fun kfs acc =>
      match kfs.2.parse (record kfs.1) with
      | .success _ => acc
      | .failure e => e.issues.map (fun i => { i with path := kfs.1 :: i.path }) ++ acc)
    []

/-- The parsed record a successful `ZodObject.safeParse` returns: each field
replaced by its field-parse output (zod coercions and defaults apply). -/
def objectParsed (shape : Shape) (record : Field → Val) : List (Field × Val) :=
  shape.map (fun kfs =>
    (kfs.1, match kfs.2.parse (record kfs.1) with
            | .success d => d
            | .failure _ => record kfs.1))

/-- `ZodObject.safeParse`: succeeds iff every field of the shape parses the
corresponding input value successfully; otherwise fails with the collected
issues. -/
def objectSafeParse (shape : Shape) (record : Field → Val) : FormParseResult :=
  if shape.all (fun kfs => (kfs.2.parse (record kfs.1)).isSuccess) then
    .success (objectParsed shape record)
  else
    .failure ⟨objectIssues shape record⟩

/-! ## Engine state -/

/-- The sparse diff, as the JS object `diff`: a total function where
`Val.undefined` is an absent key (`diff[f]` of an absent key reads `undefined`,
and every use the source makes of `diff` — `diff[f] ?? u`,
`diff[f] !== undefined`, `{...prev, [f]: v}` — cannot tell an absent key from
a key holding `undefined`). -/
abbrev Diff := Field → Val

/-- The initial diff `{}`. -/
def emptyDiff : Diff := fun _ => .undefined

/-- JS spread update `{ ...prev, [name]: v }`. -/
def objSet (d : Diff) (name : Field) (v : Val) : Diff :=
  fun f => if f = name then v else d f

/-- The upstream record `upstreamData` (absent fields read `undefined`). -/
abbrev Upstream := Field → Val

/-- The touched map (`!!touchedFields[f]`: absent reads false). -/
abbrev Touched := Field → Bool

/-- `setTouched(fieldName, touched)`: spread update of the touched map. -/
def setTouched (t : Touched) (name : Field) (b : Bool) : Touched :=
  fun f => if f = name then b else t f

/-- The mutable state a `useForm` instance holds: `diff` and
`touchedFields`. -/
structure FormState where
  diff : Diff
  touched : Touched

/-- `isDiff(fieldName)`: `diff[fieldName] !== undefined`. -/
def isDiff (d : Diff) (f : Field) : Bool :=
  decide (d f ≠ Val.undefined)

/-- `getValue(fieldName)`: `diff[fieldName] ?? getUpstreamValue(fieldName)`
(second `useForm` variant, lines 242-243; the first variant's `formValues`
entries, lines 81-89, are built by the same expression). -/
def getValue (d : Diff) (u : Upstream) (f : Field) : Val :=
  nullishOr (d f) (u f)

/-- The full effective record (`formValues` of the first variant / the
`fields` object the second variant's `handleSubmit` builds): an object with
exactly the shape's keys, each mapped to its effective value; keys outside
the shape read `undefined`. -/
def formValuesRecord (shape : Shape) (d : Diff) (u : Upstream) : Field → Val :=
  fun f => if (fieldKeys shape).contains f then getValue d u f else .undefined

/-- `fieldErrors` (second variant, lines 249-259): for each field of the
shape, `schema.shape[key].safeParse(getValue(key))`, keeping the error when
it fails. -/
def fieldErrors (shape : Shape) (d : Diff) (u : Upstream) : List (Field × ZodError) :=
  shape.foldr
    (fun kfs acc =>
      match kfs.2.parse (getValue d u kfs.1) with
      | .success _ => acc
      | .failure e => (kfs.1, e) :: acc)
    []

/-- `getError(fieldName)`: `fieldErrors[fieldName]` (absent reads
`undefined`, i.e. `none`). -/
def getError (shape : Shape) (d : Diff) (u : Upstream) (f : Field) : Option ZodError :=
  (fieldErrors shape d u).lookup f

/-- `formDirty`: `fieldKeys.filter(isDiff).length > 0`. -/
def formDirty (shape : Shape) (d : Diff) : Bool :=
  decide (0 < ((fieldKeys shape).filter (fun f => isDiff d f)).length)

/-- `reset()`: `setDiff({})` — replaces the diff with the empty object and
changes nothing else. -/
def reset (st : FormState) : FormState :=
  { st with diff := emptyDiff }

/-! ## Configuration and per-field options -/

/-- `ShowValidationOn` (`useField`, line 4). -/
inductive ShowValidationOn where
  | touched
  | always
deriving DecidableEq

/-- `UntouchOn` (`useField`, line 5). -/
inductive UntouchOn where
  | focus
  | change
  | never
deriving DecidableEq

/-- The part of `UseFormConfig` the field bindings consume, after the
`useForm` destructuring applied its defaults
(`defaultShowValidationOn = 'touched'`, `defaultUntouchOn = 'focus'`,
`formatErrorMessage = defaultFormatErrorMessage`). -/
structure FormConfig where
  formatErrorMessage : ZodError → Field → String
  defaultShowValidationOn : ShowValidationOn := .touched
  defaultUntouchOn : UntouchOn := .focus

/-- `UseFieldOptions` (`useField` variant with `disabledIf`,
`src/unnamed/part_001` lines 31-41).  `parseValue` is not a field here: the
model feeds `onChange` the already-parsed value (the result of
`parseValue(...args)`, or of the default `.target.value` extraction), since
the engine only ever observes that result. -/
structure UseFieldOptions where
  disabled : Bool := false
  disabledIf : Option ((Field → Val) → Bool) := none
  showValidationOn : Option ShowValidationOn := none
  unTouchOn : Option UntouchOn := none
  isEqual : Option (Val → Val → Bool) := none

/-- `defaultIsEqual = (a, b) => a === b` (`useField`, line 73). -/
def defaultIsEqual : Val → Val → Bool := jsStrictEq

/-- `showValidationOn = defaultShowValidationOn` option destructuring. -/
def resolvedShowValidationOn (cfg : FormConfig) (opts : UseFieldOptions) : ShowValidationOn :=
  opts.showValidationOn.getD cfg.defaultShowValidationOn

/-- `unTouchOn = defaultUntouchOn` option destructuring. -/
def resolvedUntouchOn (cfg : FormConfig) (opts : UseFieldOptions) : UntouchOn :=
  opts.unTouchOn.getD cfg.defaultUntouchOn

/-- `isEqual = defaultIsEqual` option destructuring. -/
def resolvedIsEqual (opts : UseFieldOptions) : Val → Val → Bool :=
  opts.isEqual.getD defaultIsEqual

/-! ## The field binding (`useField`, `src/unnamed/part_001`) -/

/-- The `FieldProps` record a `useField` call returns (handler closures are
modelled separately as state transitions, below). -/
structure FieldProps where
  value : Val
  inputDisabled : Bool
  required : Bool
  dataValid : Bool
  upstreamValue : Val
  disabled : Bool
  touched : Bool
  dirty : Bool
  valid : Bool
  errorMessage : Option String

/-- The derivation part of `useField ctx name options` (lines 100-156):
everything the binding returns except the three handler closures.
`required` is `!schema.shape[name].isOptional()`; for `name` outside the
shape the JS expression throws (binding an unknown field is the fatal usage
error of the spec), the model is only meaningful for `name` in the shape. -/
def useFieldProps (shape : Shape) (cfg : FormConfig) (u : Upstream)
    (st : FormState) (name : Field) (opts : UseFieldOptions) : FieldProps :=
  let touched := st.touched name
  let upstreamValue := u name
  let dirty := isDiff st.diff name
  let error := getError shape st.diff u name
  let valid := error.isNone
  let errorMessage :=
    match error with
    | none => none
    | some e =>
      if resolvedShowValidationOn cfg opts = .touched ∧ touched = false then none
      else some (cfg.formatErrorMessage e name)
  { value := getValue st.diff u name
    inputDisabled :=
      if opts.disabled then true
      else match opts.disabledIf with
           | some g => g (formValuesRecord shape st.diff u)
           | none => false
    required :=
      match shapeLookup shape name with
      | some fs => !fs.isOptional
      | none => false
    dataValid := valid
    upstreamValue := upstreamValue
    disabled := opts.disabled
    touched := touched
    dirty := dirty
    valid := valid
    errorMessage := errorMessage }

/-- The `onChange` closure (lines 103-117), applied to the parsed value:
if `isEqual(value, upstreamValue)` the diff entry is overwritten with
`undefined` (pruned), else set to the value; then, if the resolved
`unTouchOn` is `'change'`, the field is untouched. -/
def onChange (cfg : FormConfig) (u : Upstream) (name : Field)
    (opts : UseFieldOptions) (value : Val) (st : FormState) : FormState :=
  let upstreamValue := u name
  let diff :=
    if resolvedIsEqual opts value upstreamValue then objSet st.diff name .undefined
    else objSet st.diff name value
  let touched :=
    if resolvedUntouchOn cfg opts = .change then setTouched st.touched name false
    else st.touched
  { diff := diff, touched := touched }

/-- The `onFocus` closure (lines 119-123). -/
def onFocus (cfg : FormConfig) (name : Field) (opts : UseFieldOptions)
    (st : FormState) : FormState :=
  if resolvedUntouchOn cfg opts = .focus then
    { st with touched := setTouched st.touched name false }
  else st

/-- The `onBlur` closure (line 125). -/
def onBlur (name : Field) (st : FormState) : FormState :=
  { st with touched := setTouched st.touched name true }

/-- One user-interaction event delivered to a field binding's handlers. -/
inductive FieldEvent where
  | change (value : Val)
  | focus
  | blur

/-- Whether an event is a blur. -/
def FieldEvent.isBlur : FieldEvent → Bool
  | .blur => true
  | _ => false

/-- An event together with the binding it is delivered to: the field name
and the `UseFieldOptions` of that binding. -/
structure TargetedEvent where
  name : Field
  opts : UseFieldOptions
  ev : FieldEvent

/-- Dispatch one event to the corresponding handler closure. -/
def applyEvent (cfg : FormConfig) (u : Upstream) (st : FormState)
    (e : TargetedEvent) : FormState :=
  match e.ev with
  | .change v => onChange cfg u e.name e.opts v st
  | .focus => onFocus cfg e.name e.opts st
  | .blur => onBlur e.name st

/-- Dispatch a sequence of events, oldest first. -/
def applyEvents (cfg : FormConfig) (u : Upstream) (st : FormState)
    (evs : List TargetedEvent) : FormState :=
  evs.foldl (applyEvent cfg u) st

/-! ## Submission (`useForm`, second variant lines 277-297; the first
variant, lines 122-134, parses the same effective record) -/

/-- A callback invocation `handleSubmit` performs. -/
inductive SubmitCall where
  | onSubmit (data : List (Field × Val))
  | onError (error : ZodError)
deriving DecidableEq

/-- `handleSubmit(onSubmit, onError)`: builds the full effective record,
runs `schema.safeParse` on it, and synchronously calls `onSubmit(result.data)`
on success, `onError?.(result.error)` on failure.  The result is the list of
callback invocations performed, in order; `hasOnError` records whether the
optional second callback was supplied (`onError?.()` with `onError`
`undefined` does nothing). -/
def handleSubmit (shape : Shape) (d : Diff) (u : Upstream)
    (hasOnError : Bool) : List SubmitCall :=
  match objectSafeParse shape (formValuesRecord shape d u) with
  | .success data => [.onSubmit data]
  | .failure e => if hasOnError then [.onError e] else []

/-! ## The first `useForm` variant's declaration order
(`src/unnamed/part_003`, lines 63-89)

In that variant the initializer of `const fieldErrors` (line 69) runs a
`reduce` whose callback calls `getValue(key)` (line 72), but `getValue` is
the `const` declared at line 89 (reading `formValues`, the `const` declared
at line 81): when the `reduce` callback executes, both bindings are still in
their temporal dead zone, so the read throws a `ReferenceError`.  The model
makes the environment explicit: a binding not yet initialized is `none`, and
reading it is the thrown error. -/

/-- Reading a `const` binding: a `ReferenceError` if it is still in its
temporal dead zone, its value otherwise. -/
def readBinding {α : Type} (b : Option α) : Except String α :=
  match b with
  | some x => .ok x
  | none => .error "ReferenceError: cannot access const binding before initialization"

/-- The `fieldErrors` initializer of the first `useForm` variant (lines
69-79), with the `getValue` binding it reads passed explicitly in the state
it has at that point of the declaration sequence. -/
def useFormV1FieldErrors (shape : Shape)
    (getValueBinding : Option (Field → Val)) :
    Except String (List (Field × ZodError)) :=
  shape.foldlM
    (fun acc kfs => do
      let gv ← readBinding getValueBinding
      match kfs.2.parse (gv kfs.1) with
      | .success _ => pure acc
      | .failure e => pure (acc ++ [(kfs.1, e)]))
    []

/-- The derivation prefix of one render of the first `useForm` variant, in
source order: `fieldErrors` (line 69) is computed first, while `getValue`
(line 89) is still uninitialized; only afterwards are `formValues` and
`getValue` bound and the remaining derivations reached. -/
def useFormV1Render (shape : Shape) (d : Diff) (u : Upstream) :
    Except String (List (Field × ZodError) × (Field → Val)) := do
  let fieldErrorsV1 ← useFormV1FieldErrors shape none
  let formValues := formValuesRecord shape d u
  pure (fieldErrorsV1, formValues)

/-! ## Concrete schema and data, for evaluating the model at real inputs -/

/-- A required non-empty-string validator, like
`z.string().min(1, { message: "Required" })` of the repository's examples. -/
def strRequired : FieldSchema :=
  { parse := fun v =>
      match v with
      | .str s => if s.isEmpty then .failure ⟨[⟨"Required", []⟩]⟩ else .success (.str s)
      | _ => .failure ⟨[⟨"Expected string", []⟩]⟩
    isOptional := false }

/-- A one-field demo schema `{ firstName: strRequired }`. -/
def demoShape : Shape := [("firstName", strRequired)]

/-- Upstream record `{ firstName: "John" }`. -/
def demoUpstream : Upstream := fun f => if f = "firstName" then .str "John" else .undefined

/-- A concrete error formatter: the first issue's message. -/
def demoFormat : ZodError → Field → String :=
  fun e _ => (e.issues.map ZodIssue.message).headD "Invalid"

/-- A concrete configuration with all defaults. -/
def demoConfig : FormConfig := { formatErrorMessage := demoFormat }

/-- A two-field demo schema `{ email, role }`. -/
def demoShape2 : Shape := [("email", strRequired), ("role", strRequired)]

/-- Upstream record `{ email: "a@b.c", role: "admin" }`. -/
def demoUpstream2 : Upstream :=
  fun f => if f = "email" then .str "a@b.c" else if f = "role" then .str "admin" else .undefined

/-- The dynamic-disable predicate of the spec's example:
`(state) => state.role === "admin"`. -/
def demoDisabledIf : (Field → Val) → Bool :=
  fun record => jsStrictEq (record "role") (.str "admin")

/-! ## Helper lemmas -/

theorem fieldErrors_eq_nil_iff (shape : Shape) (d : Diff) (u : Upstream) :
    fieldErrors shape d u = [] ↔
      ∀ kfs ∈ shape, (kfs.2.parse (getValue d u kfs.1)).isSuccess = true := by
  induction shape with
  | nil => simp [fieldErrors]
  | cons kfs rest ih =>
    have hstep :
        fieldErrors (kfs :: rest) d u =
          match kfs.2.parse (getValue d u kfs.1) with
          | .success _ => fieldErrors rest d u
          | .failure e => (kfs.1, e) :: fieldErrors rest d u := rfl
    rcases h : kfs.2.parse (getValue d u kfs.1) with v | e
    · rw [hstep, h]
      simp only [List.mem_cons]
      constructor
      · intro hnil a ha
        rcases ha with rfl | ha
        · simp [h, SPResult.isSuccess]
        · exact (ih.mp hnil) a ha
      · intro hall
        exact ih.mpr (fun a ha => hall a (Or.inr ha))
    · rw [hstep, h]
      simp only [List.mem_cons]
      constructor
      · intro hnil
        exact absurd hnil (List.cons_ne_nil _ _)
      · intro hall
        have := hall kfs (Or.inl rfl)
        rw [h] at this
        simp [SPResult.isSuccess] at this

theorem formValuesRecord_eq_getValue (shape : Shape) (d : Diff) (u : Upstream)
    (f : Field) (h : f ∈ fieldKeys shape) :
    formValuesRecord shape d u f = getValue d u f := by
  have hc : (fieldKeys shape).contains f = true := List.elem_eq_true_of_mem h
  simp only [formValuesRecord, hc, if_true]

theorem objectSafeParse_isSuccess (shape : Shape) (record : Field → Val) :
    (objectSafeParse shape record).isSuccess =
      shape.all (fun kfs => (kfs.2.parse (record kfs.1)).isSuccess) := by
  unfold objectSafeParse
  split
  · next h => simp [FormParseResult.isSuccess, h]
  · next h =>
    simp only [FormParseResult.isSuccess]
    cases hall : shape.all (fun kfs => (kfs.2.parse (record kfs.1)).isSuccess)
    · rfl
    · exact absurd hall h

/-! ## Claim theorems -/

/-- C1.  With both callbacks supplied, `handleSubmit` performs exactly one
callback invocation, synchronously (the invocation list is the value
`handleSubmit` computes before returning) and without any exception
(`handleSubmit` is a total function): `onSubmit` with the parsed record when
full-record validation succeeds, `onError` with the structured error
otherwise. -/
theorem handleSubmit_exactly_one_callback
    (shape : Shape) (d : Diff) (u : Upstream) :
    (handleSubmit shape d u true).length = 1
    ∧ (∀ data, objectSafeParse shape (formValuesRecord shape d u) = .success data →
        handleSubmit shape d u true = [SubmitCall.onSubmit data])
    ∧ (∀ e, objectSafeParse shape (formValuesRecord shape d u) = .failure e →
        handleSubmit shape d u true = [SubmitCall.onError e]) := by
  refine ⟨?_, ?_, ?_⟩
  · unfold handleSubmit
    rcases objectSafeParse shape (formValuesRecord shape d u) with data | e <;> simp
  · intro data h
    unfold handleSubmit
    rw [h]
  · intro e h
    unfold handleSubmit
    rw [h]
    simp

/-- Witness for C1: the demo form with no diff submits successfully, with
exactly the one `onSubmit` call. -/
theorem handleSubmit_exactly_one_callback_witness :
    handleSubmit demoShape emptyDiff demoUpstream true
      = [SubmitCall.onSubmit [("firstName", Val.str "John")]] :=
  (handleSubmit_exactly_one_callback demoShape emptyDiff demoUpstream).2.1
    [("firstName", Val.str "John")] (by decide)

/-- C10.  When the optional `onError` callback is omitted and full-record
validation fails, `handleSubmit` performs no callback invocation at all and
returns normally (`onError?.(...)` on an absent callback is a no-op). -/
theorem handleSubmit_without_onError_silent
    (shape : Shape) (d : Diff) (u : Upstream) (e : ZodError)
    (h : objectSafeParse shape (formValuesRecord shape d u) = .failure e) :
    handleSubmit shape d u false = [] := by
  unfold handleSubmit
  rw [h]
  simp

/-- Witness for C10: submitting the demo form whose only field is the empty
string, without an `onError` callback, performs no invocation. -/
theorem handleSubmit_without_onError_silent_witness :
    handleSubmit demoShape (objSet emptyDiff "firstName" (Val.str "")) demoUpstream false = [] :=
  handleSubmit_without_onError_silent demoShape (objSet emptyDiff "firstName" (Val.str ""))
    demoUpstream ⟨[⟨"Required", ["firstName"]⟩]⟩ (by decide)

/-- C3.  An `onChange` whose parsed value is equal, per the field's resolved
`isEqual` (default `a === b`), to the field's upstream value leaves the diff
with no entry for the field (the entry is overwritten with `undefined`,
which every diff read treats as absence) and `dirty` false — regardless of
what the diff held before, so the diff never keeps a value changed back to
the upstream value. -/
theorem onChange_prunes_on_equal
    (cfg : FormConfig) (u : Upstream) (name : Field) (opts : UseFieldOptions)
    (value : Val) (st : FormState)
    (h : resolvedIsEqual opts value (u name) = true) :
    (onChange cfg u name opts value st).diff name = Val.undefined
    ∧ isDiff (onChange cfg u name opts value st).diff name = false := by
  have hd : (onChange cfg u name opts value st).diff name = Val.undefined := by
    unfold onChange
    simp [h, objSet]
  exact ⟨hd, by simp [isDiff, hd]⟩

/-- Witness for C3: changing `firstName` back to the upstream `"John"`
(default `isEqual`) prunes the existing diff entry. -/
theorem onChange_prunes_on_equal_witness :
    (onChange demoConfig demoUpstream "firstName" {} (Val.str "John")
        ⟨objSet emptyDiff "firstName" (Val.str "Jane"), fun _ => false⟩).diff "firstName"
      = Val.undefined
    ∧ isDiff (onChange demoConfig demoUpstream "firstName" {} (Val.str "John")
        ⟨objSet emptyDiff "firstName" (Val.str "Jane"), fun _ => false⟩).diff "firstName"
      = false :=
  onChange_prunes_on_equal demoConfig demoUpstream "firstName" {} (Val.str "John")
    ⟨objSet emptyDiff "firstName" (Val.str "Jane"), fun _ => false⟩ (by decide)

/-- C6.  `reset()` replaces the diff with the empty object and leaves the
touched map unchanged; afterwards every field's effective value is its
upstream value and `formDirty` is false. -/
theorem reset_clears_diff_keeps_touched
    (shape : Shape) (u : Upstream) (st : FormState) :
    (reset st).diff = emptyDiff
    ∧ (reset st).touched = st.touched
    ∧ (∀ f, getValue (reset st).diff u f = u f)
    ∧ formDirty shape (reset st).diff = false := by
  refine ⟨rfl, rfl, fun f => rfl, ?_⟩
  have hfilter : (fieldKeys shape).filter (fun f => isDiff (reset st).diff f) = [] := by
    apply List.filter_eq_nil_iff.mpr
    intro f _
    simp [reset, isDiff, emptyDiff]
  simp [formDirty, hfilter]

/-- C2, counterexample.  The claim "the effective value equals `Diff[f]`
whenever the Diff has an entry for `f` — for every value the entry may hold"
fails at a `null` entry: `getValue` reads the diff with the nullish
coalescing `diff[f] ?? upstream[f]`, so a diff entry holding `null` — which
the engine itself counts as an entry (`isDiff`, i.e. `diff[f] !== undefined`,
is true, the field is dirty) — does not override the upstream value.  The
state is reachable: an `onChange` whose parsed value is `null` (upstream
`"a@b.c"`, so `===` is false) stores exactly this entry. -/
theorem effective_value_overlay_counterexample :
    isDiff (objSet emptyDiff "email" Val.null) "email" = true
    ∧ getValue (objSet emptyDiff "email" Val.null) demoUpstream2 "email" = Val.str "a@b.c"
    ∧ getValue (objSet emptyDiff "email" Val.null) demoUpstream2 "email"
        ≠ objSet emptyDiff "email" Val.null "email"
    ∧ (onChange demoConfig demoUpstream2 "email" {} Val.null
        ⟨emptyDiff, fun _ => false⟩).diff "email" = Val.null := by
  refine ⟨by decide, by decide, by decide, ?_⟩
  unfold onChange
  simp [resolvedIsEqual, defaultIsEqual, demoUpstream2, jsStrictEq, objSet]

/-- C2, amended.  The effective value (`getValue`, `inputProps.value`, and
the record `handleSubmit` submits) equals the diff entry whenever the diff
has an entry for the field holding a value other than `null`; when the entry
is absent or holds `null`, it equals the upstream value. -/
theorem effective_value_overlay_amended
    (shape : Shape) (cfg : FormConfig) (u : Upstream) (st : FormState)
    (f : Field) (opts : UseFieldOptions) :
    (st.diff f ≠ Val.undefined → st.diff f ≠ Val.null → getValue st.diff u f = st.diff f)
    ∧ (st.diff f = Val.undefined → getValue st.diff u f = u f)
    ∧ (st.diff f = Val.null → getValue st.diff u f = u f)
    ∧ (useFieldProps shape cfg u st f opts).value = getValue st.diff u f
    ∧ ((fieldKeys shape).contains f = true → formValuesRecord shape st.diff u f = getValue st.diff u f) := by
  refine ⟨?_, ?_, ?_, rfl, ?_⟩
  · intro h1 h2
    unfold getValue nullishOr
    rcases hv : st.diff f <;> simp_all [Val.isNullish]
  · intro h
    unfold getValue nullishOr
    rw [h]
    simp [Val.isNullish]
  · intro h
    unfold getValue nullishOr
    rw [h]
    simp [Val.isNullish]
  · intro h
    simp only [formValuesRecord, h, if_true]

/-- Witness for C2's amended theorem: a diff entry `"x"` on the demo form
overrides upstream `"John"`. -/
theorem effective_value_overlay_amended_witness :
    getValue (objSet emptyDiff "firstName" (Val.str "x")) demoUpstream "firstName"
      = objSet emptyDiff "firstName" (Val.str "x") "firstName" :=
  (effective_value_overlay_amended demoShape demoConfig demoUpstream
      ⟨objSet emptyDiff "firstName" (Val.str "x"), fun _ => false⟩ "firstName" {}).1
    (by decide) (by decide)

/-- C5.  The per-field error map is empty (every field's isolation check of
its effective value succeeds) if and only if the full-record `safeParse`
that `handleSubmit` runs on the effective record succeeds — equivalently,
iff `handleSubmit` makes an `onSubmit` call. -/
theorem formValid_iff_submit_success
    (shape : Shape) (d : Diff) (u : Upstream) :
    (fieldErrors shape d u = [] ↔
      (objectSafeParse shape (formValuesRecord shape d u)).isSuccess = true)
    ∧ (fieldErrors shape d u = [] ↔
      ∃ data, handleSubmit shape d u true = [SubmitCall.onSubmit data]) := by
  have key : fieldErrors shape d u = [] ↔
      (objectSafeParse shape (formValuesRecord shape d u)).isSuccess = true := by
    rw [objectSafeParse_isSuccess, List.all_eq_true, fieldErrors_eq_nil_iff]
    constructor
    · intro hall kfs hk
      rw [formValuesRecord_eq_getValue shape d u kfs.1
        (List.mem_map_of_mem Prod.fst hk)]
      exact hall kfs hk
    · intro hall kfs hk
      have := hall kfs hk
      rwa [formValuesRecord_eq_getValue shape d u kfs.1
        (List.mem_map_of_mem Prod.fst hk)] at this
  refine ⟨key, key.trans ?_⟩
  unfold handleSubmit
  rcases h : objectSafeParse shape (formValuesRecord shape d u) with data | e
  · simp [FormParseResult.isSuccess]
  · simp [FormParseResult.isSuccess]

/-- Witness for C5: on the demo form with no diff both sides of the
equivalence hold. -/
theorem formValid_iff_submit_success_witness :
    fieldErrors demoShape emptyDiff demoUpstream = []
    ∧ (objectSafeParse demoShape (formValuesRecord demoShape emptyDiff demoUpstream)).isSuccess = true :=
  ⟨by decide,
   (formValid_iff_submit_success demoShape emptyDiff demoUpstream).1.mp (by decide)⟩

/-- C4 (code bug).  In the first `useForm` variant (part_003 lines 63-89)
the `fieldErrors` initializer calls `getValue` while `getValue` and
`formValues` are still uninitialized `const` bindings, so for every
non-empty schema the first render of the engine throws a `ReferenceError`
during construction instead of evaluating its derivations; only the empty
schema escapes, because the `reduce` callback then never runs.  (The second
variant, lines 236-259, declares `getValue` before `fieldErrors` and its
derivations are the total functions this file models.) -/
theorem useFormV1_render_raises
    (shape : Shape) (d : Diff) (u : Upstream) (h : shape ≠ []) :
    ∃ msg, useFormV1Render shape d u = Except.error msg := by
  match shape, h with
  | kfs :: rest, _ =>
    exact ⟨"ReferenceError: cannot access const binding before initialization", rfl⟩

/-- Witness for C4: the demo schema's first variant-1 render raises. -/
theorem useFormV1_render_raises_witness :
    ∃ msg, useFormV1Render demoShape emptyDiff demoUpstream = Except.error msg :=
  useFormV1_render_raises demoShape emptyDiff demoUpstream (List.cons_ne_nil _ _)

/-- C7.  Touch policy: `onBlur` sets the field touched; when the field's
resolved `unTouchOn` is `'focus'`, a following `onFocus` clears it; and when
every event delivered to the field uses `unTouchOn = 'never'`, no sequence
of focus and change events (on this or any other field, the other fields
with arbitrary options) ever clears the field's touched flag once it is
true. -/
theorem touch_policy
    (cfg : FormConfig) (u : Upstream) (st : FormState) (f : Field)
    (opts : UseFieldOptions) :
    (onBlur f st).touched f = true
    ∧ (resolvedUntouchOn cfg opts = .focus →
        (onFocus cfg f opts (onBlur f st)).touched f = false)
    ∧ (∀ evs : List TargetedEvent,
        (∀ e ∈ evs, e.name = f → resolvedUntouchOn cfg e.opts = .never) →
        (∀ e ∈ evs, e.ev.isBlur = false) →
        st.touched f = true →
        (applyEvents cfg u st evs).touched f = true) := by
  refine ⟨by simp [onBlur, setTouched], ?_, ?_⟩
  · intro h
    simp [onFocus, h, setTouched]
  · intro evs
    induction evs generalizing st with
    | nil =>
      intro _ _ hst
      simpa [applyEvents] using hst
    | cons e rest ih =>
      intro hnever hnoblur hst
      have hstep : (applyEvent cfg u st e).touched f = true := by
        rcases e with ⟨name, eopts, ev⟩
        rcases ev with v | _ | _
        · unfold applyEvent onChange
          by_cases hn : name = f
          · subst hn
            have hres := hnever _ (List.mem_cons_self _ _) rfl
            simp only [hres]
            simpa using hst
          · by_cases hc : resolvedUntouchOn cfg eopts = .change <;>
              simp [hc, setTouched, Ne.symm hn, hst]
        · unfold applyEvent onFocus
          by_cases hc : resolvedUntouchOn cfg eopts = .focus
          · rw [if_pos hc]
            by_cases hn : name = f
            · subst hn
              have hres := hnever _ (List.mem_cons_self _ _) rfl
              rw [hc] at hres
              exact absurd hres (by decide)
            · simpa [setTouched, Ne.symm hn] using hst
          · rw [if_neg hc]
            exact hst
        · have := hnoblur _ (List.mem_cons_self _ _)
          simp [FieldEvent.isBlur] at this
      have hsplit : applyEvents cfg u st (e :: rest)
          = applyEvents cfg u (applyEvent cfg u st e) rest := rfl
      rw [hsplit]
      exact ih (applyEvent cfg u st e)
        (fun x hx => hnever x (List.mem_cons_of_mem _ hx))
        (fun x hx => hnoblur x (List.mem_cons_of_mem _ hx)) hstep

/-- Witness for C7: with `unTouchOn = 'never'`, a focus followed by a change
on the touched field leaves it touched. -/
theorem touch_policy_witness :
    (applyEvents demoConfig demoUpstream ⟨emptyDiff, fun _ => true⟩
        [⟨"firstName", { unTouchOn := some .never }, .focus⟩,
         ⟨"firstName", { unTouchOn := some .never }, .change (Val.str "x")⟩]).touched "firstName"
      = true :=
  (touch_policy demoConfig demoUpstream ⟨emptyDiff, fun _ => true⟩ "firstName" {}).2.2
    [⟨"firstName", { unTouchOn := some .never }, .focus⟩,
     ⟨"firstName", { unTouchOn := some .never }, .change (Val.str "x")⟩]
    (by
      intro e he _
      rcases List.mem_cons.mp he with rfl | he2
      · rfl
      · rcases List.mem_cons.mp he2 with rfl | he3
        · rfl
        · exact absurd he3 (List.not_mem_nil e))
    (by
      intro e he
      rcases List.mem_cons.mp he with rfl | he2
      · rfl
      · rcases List.mem_cons.mp he2 with rfl | he3
        · rfl
        · exact absurd he3 (List.not_mem_nil e))
    rfl

/-- C8.  `errorMessage` of a field binding: `undefined` when the field's
effective value is valid; `undefined` when the resolved `showValidationOn`
is `'touched'` and the field is untouched; otherwise the result of
`formatErrorMessage` on the field's validation error. -/
theorem errorMessage_cases
    (shape : Shape) (cfg : FormConfig) (u : Upstream) (st : FormState)
    (f : Field) (opts : UseFieldOptions) :
    (getError shape st.diff u f = none →
      (useFieldProps shape cfg u st f opts).errorMessage = none)
    ∧ (resolvedShowValidationOn cfg opts = .touched → st.touched f = false →
      (useFieldProps shape cfg u st f opts).errorMessage = none)
    ∧ (∀ e, getError shape st.diff u f = some e →
      ¬(resolvedShowValidationOn cfg opts = .touched ∧ st.touched f = false) →
      (useFieldProps shape cfg u st f opts).errorMessage
        = some (cfg.formatErrorMessage e f)) := by
  refine ⟨?_, ?_, ?_⟩
  · intro h
    simp [useFieldProps, h]
  · intro h1 h2
    rcases hg : getError shape st.diff u f with _ | e
    · simp [useFieldProps, hg]
    · simp [useFieldProps, hg, h1, h2]
  · intro e hg hng
    simp [useFieldProps, hg, if_neg hng]

/-- Witness for C8: the demo field holding the invalid empty string while
touched reports the formatted "Required" message. -/
theorem errorMessage_cases_witness :
    (useFieldProps demoShape demoConfig demoUpstream
        ⟨objSet emptyDiff "firstName" (Val.str ""), fun _ => true⟩ "firstName" {}).errorMessage
      = some (demoConfig.formatErrorMessage ⟨[⟨"Required", []⟩]⟩ "firstName") :=
  (errorMessage_cases demoShape demoConfig demoUpstream
      ⟨objSet emptyDiff "firstName" (Val.str ""), fun _ => true⟩ "firstName" {}).2.2
    ⟨[⟨"Required", []⟩]⟩ (by decide) (by decide)

/-- C9.  `inputProps.disabled`: true when the static `disabled` option is
set; otherwise the value of `disabledIf` applied to the full current
effective record when supplied; otherwise false.  In particular it is true
whenever `disabledIf` of the record is true. -/
theorem inputDisabled_cases
    (shape : Shape) (cfg : FormConfig) (u : Upstream) (st : FormState)
    (f : Field) (opts : UseFieldOptions) :
    (opts.disabled = true →
      (useFieldProps shape cfg u st f opts).inputDisabled = true)
    ∧ (opts.disabled = false → ∀ g, opts.disabledIf = some g →
      (useFieldProps shape cfg u st f opts).inputDisabled
        = g (formValuesRecord shape st.diff u))
    ∧ (opts.disabled = false → opts.disabledIf = none →
      (useFieldProps shape cfg u st f opts).inputDisabled = false)
    ∧ (∀ g, opts.disabledIf = some g → g (formValuesRecord shape st.diff u) = true →
      (useFieldProps shape cfg u st f opts).inputDisabled = true) := by
  refine ⟨?_, ?_, ?_, ?_⟩
  · intro h
    simp [useFieldProps, h]
  · intro h g hg
    simp [useFieldProps, h, hg]
  · intro h hg
    simp [useFieldProps, h, hg]
  · intro g hg hval
    by_cases h : opts.disabled
    · simp [useFieldProps, h]
    · simp [useFieldProps, h, hg, hval]

/-- Witness for C9: the spec's dynamic-disable example — `disabledIf`
checking `role === "admin"` disables the `email` binding when the record's
role is `"admin"`. -/
theorem inputDisabled_cases_witness :
    (useFieldProps demoShape2 demoConfig demoUpstream2
        ⟨emptyDiff, fun _ => false⟩ "email"
        { disabledIf := some demoDisabledIf }).inputDisabled = true :=
  (inputDisabled_cases demoShape2 demoConfig demoUpstream2 ⟨emptyDiff, fun _ => false⟩
      "email" { disabledIf := some demoDisabledIf }).2.2.2 demoDisabledIf rfl (by decide)

end Blitzform
